import Mathlib

/-!
Verification of the Database Abstraction & Migration Engine of the
`dba-mcp` repository, as a shallow embedding in Lean 4.

The embedding follows `src/unnamed/part_003` (`DatabaseService`),
`src/unnamed/part_006` (`DataMigrationService`) and
`src/build/index.js` (the `replicate_database` handler).  External
systems (the native drivers and servers) are modelled as explicit
parameters: a driver reply record, a catalog snapshot, or an
event/outcome value, so that every repository-side decision is a Lean
function of those inputs.
-/

namespace DbaMcp

/-- The five vendor tags dispatched on by `DatabaseService`
(`mysql` and `mariadb` are distinct tags sharing the MySQL code paths). -/
inductive Vendor where
  | oracle
  | postgresql
  | mysql
  | mariadb
  | sqlserver
  | sqlite
deriving DecidableEq, Repr

/-- A loosely typed scalar cell value.  `undef` models the JavaScript
`undefined` produced by reading a key that a row object does not have. -/
inductive Value where
  | vnull
  | undef
  | int (n : Int)
  | str (s : String)
deriving DecidableEq, Repr

/-- A row object: an ordered association of column names to values
(JavaScript object, keys in insertion order). -/
abbrev Row := List (String × Value)

/-- Reading `row[col]` in JavaScript: the stored value, or `undefined`
when the key is absent. -/
def rowGet (r : Row) (c : String) : Value :=
  (r.lookup c).getD Value.undef

/-- JavaScript `o || dflt` on an optional numeric driver field:
`undefined` and `0` are falsy. -/
def jsOrNat (o : Option Nat) (dflt : Nat) : Nat :=
  match o with
  | some n => if n = 0 then dflt else n
  | none => dflt

/-- JavaScript `s || dflt` on an optional string: `undefined` and the
empty string are falsy. -/
def jsOrStr (o : Option String) (dflt : String) : String :=
  match o with
  | some s => if s = "" then dflt else s
  | none => dflt

/-- JavaScript `s.toUpperCase()` on the ASCII identifiers this code
handles: character-wise upper-casing. -/
def strUpper (s : String) : String :=
  String.mk (s.data.map Char.toUpper)

/-- Identifier quoting in `insertBatch`: back-ticks for the two
MySQL-family vendors, double quotes for the rest. -/
def quoteId (v : Vendor) (id : String) : String :=
  if v = Vendor.mysql ∨ v = Vendor.mariadb then "`" ++ id ++ "`"
  else "\"" ++ id ++ "\""

/-- `Object.keys(rows[0])`: the column list used by `insertBatch`,
taken from the first row only. -/
def distinctColumns (rows : List Row) : List String :=
  (rows.headD []).map Prod.fst

/-- Counter of pool leases taken and returned by one operation on the
pool-leasing (oracle) vendor. -/
structure Ledger where
  acquired : Nat
  released : Nat
deriving DecidableEq, Repr

/-- The one native execution `insertBatch` performs against the target,
recorded with the SQL text it built and the values it bound. -/
inductive ExecCall where
  | oracleMany (sql : String) (binds : List (List Value))
  | sqliteTxn (sql : String) (runs : List (List Value))
  | pgQuery (sql : String) (values : List Value)
  | myQuery (sql : String) (values : List Value)
deriving DecidableEq, Repr

/-- Driver-reported counters consumed by `insertBatch`
(`result.rowsAffected`, `result.rowCount`, `result.affectedRows`). -/
structure InsertDriver where
  oracleRowsAffected : Option Nat
  pgRowCount : Option Nat
  myAffectedRows : Option Nat
deriving DecidableEq, Repr

/-- Result of one `insertBatch` call: the native execution it issued
(if any), the count it returned, and its oracle pool ledger. -/
structure BatchResult where
  call : Option ExecCall
  count : Nat
  ledger : Ledger
deriving DecidableEq, Repr

/-- The postgresql VALUES construction: per row one parenthesized group
of numbered placeholders `$i`, values pushed flat in column order,
`paramIndex` threaded across rows (faithful to the `forEach` loops). -/
def pgValuesBuild (cols : List String) : List Row → Nat → List String × List Value
  | [], _ => ([], [])
  | r :: rs, idx =>
    let rowParams := (List.range cols.length).map (fun j => "$" ++ toString (idx + j))
    let vals := cols.map (fun c => rowGet r c)
    let rest := pgValuesBuild cols rs (idx + cols.length)
    (("(" ++ String.intercalate ", " rowParams ++ ")") :: rest.1, vals ++ rest.2)

/-- The MySQL-family VALUES construction: per row one parenthesized
group of `?` placeholders, values pushed flat in column order. -/
def myValuesBuild (cols : List String) : List Row → List String × List Value
  | [] => ([], [])
  | r :: rs =>
    let vals := cols.map (fun c => rowGet r c)
    let rest := myValuesBuild cols rs
    (("(" ++ String.intercalate ", " (cols.map (fun _ => "?")) ++ ")") :: rest.1, vals ++ rest.2)

/-- `DatabaseService.insertBatch` (part_003 lines 685-766): empty input
returns 0 before touching the connection; otherwise the column list is
`Object.keys(rows[0])` and one vendor-specific bulk execution is built.
The `sqlserver` vendor matches no strategy branch and falls through to
`return 0`. -/
def insertBatch (v : Vendor) (d : InsertDriver) (tableName : String) (rows : List Row) :
    BatchResult :=
  if rows.length = 0 then ⟨none, 0, ⟨0, 0⟩⟩
  else
    let cols := distinctColumns rows
    let colNames := String.intercalate ", " (cols.map (quoteId v))
    match v with
    | Vendor.oracle =>
      let sql := "INSERT INTO " ++ quoteId v tableName ++ " (" ++ colNames ++ ") VALUES (" ++
        String.intercalate ", " ((List.range cols.length).map (fun i => ":" ++ toString i)) ++ ")"
      let binds := rows.map (fun r => cols.map (fun c => rowGet r c))
      ⟨some (ExecCall.oracleMany sql binds), jsOrNat d.oracleRowsAffected rows.length, ⟨1, 1⟩⟩
    | Vendor.sqlite =>
      let sql := "INSERT INTO " ++ quoteId v tableName ++ " (" ++ colNames ++ ") VALUES " ++
        "(" ++ String.intercalate ", " (cols.map (fun _ => "?")) ++ ")"
      let runs := rows.map (fun r => cols.map (fun c => rowGet r c))
      ⟨some (ExecCall.sqliteTxn sql runs), rows.length, ⟨0, 0⟩⟩
    | Vendor.postgresql =>
      let built := pgValuesBuild cols rows 1
      let sql := "INSERT INTO " ++ quoteId v tableName ++ " (" ++ colNames ++ ") VALUES " ++
        String.intercalate ", " built.1
      ⟨some (ExecCall.pgQuery sql built.2), d.pgRowCount.getD 0, ⟨0, 0⟩⟩
    | Vendor.mysql =>
      let built := myValuesBuild cols rows
      let sql := "INSERT INTO " ++ quoteId v tableName ++ " (" ++ colNames ++ ") VALUES " ++
        String.intercalate ", " built.1
      ⟨some (ExecCall.myQuery sql built.2), jsOrNat d.myAffectedRows rows.length, ⟨0, 0⟩⟩
    | Vendor.mariadb =>
      let built := myValuesBuild cols rows
      let sql := "INSERT INTO " ++ quoteId v tableName ++ " (" ++ colNames ++ ") VALUES " ++
        String.intercalate ", " built.1
      ⟨some (ExecCall.myQuery sql built.2), jsOrNat d.myAffectedRows rows.length, ⟨0, 0⟩⟩
    | Vendor.sqlserver => ⟨none, 0, ⟨0, 0⟩⟩

/-- Checks that an executed call bound exactly the expected per-row
value lists, flattened for the two flat-parameter protocols. -/
def callBinds : ExecCall → List (List Value) → Bool
  | ExecCall.oracleMany _ binds, exp => binds == exp
  | ExecCall.sqliteTxn _ runs, exp => runs == exp
  | ExecCall.pgQuery _ vals, exp => vals == exp.flatten
  | ExecCall.myQuery _ vals, exp => vals == exp.flatten

/-- `callBinds` lifted over the optional execution of a `BatchResult`. -/
def callBindsB : Option ExecCall → List (List Value) → Bool
  | none, _ => false
  | some c, exp => callBinds c exp

theorem pgValuesBuild_values (cols : List String) :
    ∀ (rows : List Row) (idx : Nat),
      (pgValuesBuild cols rows idx).2 =
        (rows.map (fun r => cols.map (fun c => rowGet r c))).flatten := by
  intro rows
  induction rows with
  | nil => intro idx; simp [pgValuesBuild]
  | cons r rs ih => intro idx; simp [pgValuesBuild, ih]

theorem myValuesBuild_values (cols : List String) :
    ∀ rows : List Row,
      (myValuesBuild cols rows).2 =
        (rows.map (fun r => cols.map (fun c => rowGet r c))).flatten := by
  intro rows
  induction rows with
  | nil => simp [myValuesBuild]
  | cons r rs ih => simp [myValuesBuild, ih]

/-- Claim C9: for every table name and every vendor, `insertBatch` on an
empty row list returns 0 immediately: no SQL statement is built, no
connection is acquired, nothing is executed against the target. -/
theorem claim_C9_insertBatch_empty (v : Vendor) (d : InsertDriver) (t : String) :
    insertBatch v d t [] = ⟨none, 0, ⟨0, 0⟩⟩ := by
  simp [insertBatch]

/-- Claim C10 (counterexample): for the `sqlserver` vendor `insertBatch`
executes nothing at all on a non-empty row list — no row is bound in the
first row's column order (there is no bound row), and the call returns 0. -/
theorem claim_C10_counterexample :
    (insertBatch Vendor.sqlserver ⟨none, none, none⟩ "T"
        [[("A", Value.int 1)], [("A", Value.int 2)]]).call = none ∧
    (insertBatch Vendor.sqlserver ⟨none, none, none⟩ "T"
        [[("A", Value.int 1)], [("A", Value.int 2)]]).count = 0 ∧
    callBindsB
      (insertBatch Vendor.sqlserver ⟨none, none, none⟩ "T"
        [[("A", Value.int 1)], [("A", Value.int 2)]]).call
      ([[("A", Value.int 1)], [("A", Value.int 2)]].map (fun r =>
        (distinctColumns [[("A", Value.int 1)], [("A", Value.int 2)]]).map
          (fun c => rowGet r c))) = false := by
  refine ⟨rfl, rfl, rfl⟩

/-- Claim C10 (amended): for every vendor that has an insert strategy
(all but `sqlserver`) and every non-empty row list, the executed call
binds exactly one value group per row, each in the first row's column
order: keys present only in later rows are dropped, keys missing from a
later row are bound as `undefined`. -/
theorem claim_C10_first_row_columns (v : Vendor) (d : InsertDriver) (t : String)
    (rows : List Row) (hne : rows ≠ []) (hv : v ≠ Vendor.sqlserver) :
    callBindsB (insertBatch v d t rows).call
      (rows.map (fun r => (distinctColumns rows).map (fun c => rowGet r c))) = true := by
  have hlen : ¬ rows.length = 0 := by
    simpa using hne
  cases v with
  | oracle =>
    simp [insertBatch, hlen, callBindsB, callBinds]
  | postgresql =>
    simp [insertBatch, hlen, callBindsB, callBinds, pgValuesBuild_values]
  | mysql =>
    simp [insertBatch, hlen, callBindsB, callBinds, myValuesBuild_values]
  | mariadb =>
    simp [insertBatch, hlen, callBindsB, callBinds, myValuesBuild_values]
  | sqlserver => exact absurd rfl hv
  | sqlite =>
    simp [insertBatch, hlen, callBindsB, callBinds]

/-- Claim C10 (witness): a concrete postgresql batch whose second row
has a different key: the bound values are the first row's column `A`
read from each row, so row 2 binds `undefined` and its key `B` is
dropped. -/
theorem claim_C10_witness :
    ([[("A", Value.int 1)], [("B", Value.int 2)]] : List Row) ≠ [] ∧
    Vendor.postgresql ≠ Vendor.sqlserver ∧
    callBindsB
      (insertBatch Vendor.postgresql ⟨none, none, none⟩ "T"
        [[("A", Value.int 1)], [("B", Value.int 2)]]).call
      ([[("A", Value.int 1)], [("B", Value.int 2)]].map (fun r =>
        (distinctColumns [[("A", Value.int 1)], [("B", Value.int 2)]]).map
          (fun c => rowGet r c))) = true :=
  ⟨by decide, by decide,
    claim_C10_first_row_columns Vendor.postgresql ⟨none, none, none⟩ "T"
      [[("A", Value.int 1)], [("B", Value.int 2)]] (by decide) (by decide)⟩

/-! ## MigrationEngine (`DataMigrationService`, part_006) -/

/-- The slicing loop of `migrateTable`:
`for (i = 0; i < rows.length; i += batchSize) rows.slice(i, i + batchSize)`.
A `batchSize` of 0 never terminates in the source; the embedding returns
`[]` there and every theorem assumes `0 < batchSize`. -/
def sliceBatches (batchSize : Nat) (rows : List Row) : List (List Row) :=
  if _h : rows = [] ∨ batchSize = 0 then []
  else rows.take batchSize :: sliceBatches batchSize (rows.drop batchSize)
termination_by rows.length
decreasing_by
  push_neg at _h
  simp only [List.length_drop]
  exact Nat.sub_lt (List.length_pos.mpr _h.1) (Nat.pos_of_ne_zero _h.2)

theorem sliceBatches_nil (batchSize : Nat) : sliceBatches batchSize [] = [] := by
  rw [sliceBatches]
  simp

theorem sliceBatches_cons (batchSize : Nat) (rows : List Row)
    (h1 : rows ≠ []) (h2 : batchSize ≠ 0) :
    sliceBatches batchSize rows =
      rows.take batchSize :: sliceBatches batchSize (rows.drop batchSize) := by
  rw [sliceBatches]
  simp [h1, h2]

theorem sliceBatches_flatten_aux (batchSize : Nat) (hk : 0 < batchSize) :
    ∀ (n : Nat) (rows : List Row), rows.length ≤ n →
      (sliceBatches batchSize rows).flatten = rows := by
  intro n
  induction n with
  | zero =>
    intro rows hr
    have : rows = [] := List.length_eq_zero.mp (Nat.le_zero.mp hr)
    subst this
    simp [sliceBatches_nil]
  | succ n ih =>
    intro rows hr
    by_cases h0 : rows = []
    · subst h0; simp [sliceBatches_nil]
    · rw [sliceBatches_cons batchSize rows h0 (Nat.pos_iff_ne_zero.mp hk)]
      have hd : (rows.drop batchSize).length ≤ n := by
        simp only [List.length_drop]
        have hlt : rows.length - batchSize < rows.length :=
          Nat.sub_lt (List.length_pos.mpr h0) hk
        omega
      simp [ih (rows.drop batchSize) hd]

theorem sliceBatches_flatten (batchSize : Nat) (hk : 0 < batchSize) (rows : List Row) :
    (sliceBatches batchSize rows).flatten = rows :=
  sliceBatches_flatten_aux batchSize hk rows.length rows le_rfl

theorem sliceBatches_mem_aux (batchSize : Nat) (hk : 0 < batchSize) :
    ∀ (n : Nat) (rows : List Row), rows.length ≤ n →
      ∀ b ∈ sliceBatches batchSize rows, b ≠ [] ∧ b.length ≤ batchSize := by
  intro n
  induction n with
  | zero =>
    intro rows hr
    have : rows = [] := List.length_eq_zero.mp (Nat.le_zero.mp hr)
    subst this
    simp [sliceBatches_nil]
  | succ n ih =>
    intro rows hr b hb
    by_cases h0 : rows = []
    · subst h0; simp [sliceBatches_nil] at hb
    · rw [sliceBatches_cons batchSize rows h0 (Nat.pos_iff_ne_zero.mp hk)] at hb
      rcases List.mem_cons.mp hb with hb | hb
      · subst hb
        refine ⟨?_, by simp⟩
        intro hemp
        rcases rows with _ | ⟨x, xs⟩
        · exact h0 rfl
        · cases batchSize with
          | zero => exact absurd rfl (Nat.pos_iff_ne_zero.mp hk)
          | succ k => simp at hemp
      · have hd : (rows.drop batchSize).length ≤ n := by
          simp only [List.length_drop]
          have hlt : rows.length - batchSize < rows.length :=
            Nat.sub_lt (List.length_pos.mpr h0) hk
          omega
        exact ih (rows.drop batchSize) hd b hb

theorem sliceBatches_mem (batchSize : Nat) (hk : 0 < batchSize) (rows : List Row) :
    ∀ b ∈ sliceBatches batchSize rows, b ≠ [] ∧ b.length ≤ batchSize :=
  sliceBatches_mem_aux batchSize hk rows.length rows le_rfl

/-- The insertion loop of `migrateTable`: call `insertBatch` on each
slice in order, accumulating `totalInserted += batch.length` — the
count returned by `insertBatch` is discarded.  The second component
records the batches actually handed to `insertBatch`. -/
def insertLoop (ins : List Row → Except String Nat) :
    List (List Row) → Except String Nat × List (List Row)
  | [] => (Except.ok 0, [])
  | b :: bs =>
    match ins b with
    | Except.error e => (Except.error e, [b])
    | Except.ok _ =>
      let rest := insertLoop ins bs
      (match rest.1 with
       | Except.ok n => Except.ok (b.length + n)
       | Except.error e => Except.error e,
       b :: rest.2)

/-- `DataMigrationService.migrateTable` after the source fetch
(part_006 lines 27-45): `fetched` is `result.rows` of the capped
select; zero rows returns `{rows: 0}` at once, otherwise the slices are
inserted in order and the slice lengths are summed. -/
def migrateTable (fetched : List Row) (batchSize : Nat)
    (ins : List Row → Except String Nat) : Except String Nat × List (List Row) :=
  if fetched.isEmpty then (Except.ok 0, [])
  else insertLoop ins (sliceBatches batchSize fetched)

theorem insertLoop_ok (ins : List Row → Except String Nat) :
    ∀ bs : List (List Row), (∀ b ∈ bs, ∃ n, ins b = Except.ok n) →
      insertLoop ins bs = (Except.ok (bs.map List.length).sum, bs) := by
  intro bs
  induction bs with
  | nil => intro _; simp [insertLoop]
  | cons b rest ih =>
    intro hok
    obtain ⟨n, hn⟩ := hok b (List.mem_cons_self b rest)
    have hrest := ih (fun x hx => hok x (List.mem_cons_of_mem b hx))
    simp [insertLoop, hn, hrest]

/-- Claim C1 (counterexample): with a `sqlserver` target, `insertBatch`
returns 0 for every slice (it inserts nothing), yet `migrateTable` on
two fetched rows reports 2 rows copied — the returned value is not the
sum of the counts returned by the `insertBatch` calls (which is 0). -/
theorem claim_C1_counterexample :
    (migrateTable [[("A", Value.int 1)], [("A", Value.int 2)]] 1000
      (fun b => Except.ok (insertBatch Vendor.sqlserver ⟨none, none, none⟩ "T" b).count)).1 =
        Except.ok 2 ∧
    ((migrateTable [[("A", Value.int 1)], [("A", Value.int 2)]] 1000
      (fun b => Except.ok (insertBatch Vendor.sqlserver ⟨none, none, none⟩ "T" b).count)).2.map
        (fun b => (insertBatch Vendor.sqlserver ⟨none, none, none⟩ "T" b).count)).sum = 0 := by
  have hs : sliceBatches 1000 [[("A", Value.int 1)], [("A", Value.int 2)]] =
      [[[("A", Value.int 1)], [("A", Value.int 2)]]] := by
    rw [sliceBatches_cons _ _ (by decide) (by decide),
      List.take_of_length_le (by norm_num), List.drop_eq_nil_of_le (by norm_num),
      sliceBatches_nil]
  constructor
  · rw [migrateTable, if_neg (by decide), hs]
    simp [insertLoop, insertBatch]
  · rw [migrateTable, if_neg (by decide), hs]
    simp [insertLoop, insertBatch]

/-- Claim C1 (amended): with a positive batch size and every
`insertBatch` call succeeding, `migrateTable` calls `insertBatch` once
per consecutive slice of `batchSize` fetched rows, in order, and
returns as `rows` the total number of fetched rows — the sum of the
slice lengths, the counts returned by `insertBatch` being ignored; a
zero-row fetch returns 0 with no `insertBatch` call. -/
theorem claim_C1_migrateTable_batches (fetched : List Row) (batchSize : Nat)
    (ins : List Row → Except String Nat) (hk : 0 < batchSize)
    (hok : ∀ b ∈ sliceBatches batchSize fetched, ∃ n, ins b = Except.ok n) :
    migrateTable fetched batchSize ins =
      (Except.ok fetched.length, sliceBatches batchSize fetched) ∧
    (sliceBatches batchSize fetched).flatten = fetched ∧
    (∀ b ∈ sliceBatches batchSize fetched, b ≠ [] ∧ b.length ≤ batchSize) := by
  have hflat := sliceBatches_flatten batchSize hk fetched
  have hsum : ((sliceBatches batchSize fetched).map List.length).sum = fetched.length := by
    calc ((sliceBatches batchSize fetched).map List.length).sum
        = (sliceBatches batchSize fetched).flatten.length := by
          rw [List.length_flatten]
      _ = fetched.length := by rw [hflat]
  refine ⟨?_, hflat, sliceBatches_mem batchSize hk fetched⟩
  by_cases hr : fetched = []
  · subst hr
    simp [migrateTable, sliceBatches_nil]
  · have : ¬ fetched.isEmpty := by simpa [List.isEmpty_iff] using hr
    rw [migrateTable, if_neg this, insertLoop_ok ins _ hok, hsum]

/-- Claim C1 (witness): three fetched rows with batch size 2 give two
slices `[r1, r2]` and `[r3]`, a reported total of 3, and slices that
concatenate back to the fetched list. -/
theorem claim_C1_witness :
    migrateTable [[("A", Value.int 1)], [("A", Value.int 2)], [("A", Value.int 3)]] 2
        (fun b => Except.ok b.length) =
      (Except.ok 3,
        sliceBatches 2 [[("A", Value.int 1)], [("A", Value.int 2)], [("A", Value.int 3)]]) ∧
    (sliceBatches 2 [[("A", Value.int 1)], [("A", Value.int 2)], [("A", Value.int 3)]]).flatten =
      [[("A", Value.int 1)], [("A", Value.int 2)], [("A", Value.int 3)]] ∧
    (∀ b ∈ sliceBatches 2 [[("A", Value.int 1)], [("A", Value.int 2)], [("A", Value.int 3)]],
      b ≠ [] ∧ b.length ≤ 2) :=
  claim_C1_migrateTable_batches
    [[("A", Value.int 1)], [("A", Value.int 2)], [("A", Value.int 3)]] 2
    (fun b => Except.ok b.length) (by decide)
    (fun b _ => ⟨b.length, rfl⟩)

/-- One entry of the report built by `migrateData`: a success entry
carries `rows` and `time`, an error entry carries the caught message. -/
inductive MigEntry where
  | success (table : String) (rows : Nat) (time : Nat)
  | failure (table : String) (error : String)
deriving DecidableEq, Repr

/-- Does a report entry satisfy the spec's "non-empty error message"
requirement (success entries vacuously do)? -/
def migEntryErrNonempty : MigEntry → Bool
  | MigEntry.failure _ m => !m.isEmpty
  | MigEntry.success _ _ _ => true

/-- `DataMigrationService.migrateData` (part_006 lines 48-65): each
table is migrated in order; the per-table outcome of `migrateTable`
(rows and time, or the thrown message) becomes one report entry; the
`truncateTarget` flag is accepted but is a no-op. -/
def migrateData (tables : List String) (truncateTarget : Bool)
    (run : String → Except String (Nat × Nat)) : List MigEntry :=
  tables.map (fun table =>
    match run table with
    | Except.ok (r, t) => MigEntry.success table r t
    | Except.error m => MigEntry.failure table m)

/-- Claim C4 (counterexample): when table B's copy throws an error whose
message is empty, B's report entry has status error but an empty error
message — the claim's "non-empty error message" fails.  The report
still has exactly two entries in order and A's entry is a success. -/
theorem claim_C4_counterexample :
    migrateData ["A", "B"] false
        (fun t => if t = "A" then Except.ok (5, 7) else Except.error "") =
      [MigEntry.success "A" 5 7, MigEntry.failure "B" ""] ∧
    (migrateData ["A", "B"] false
        (fun t => if t = "A" then Except.ok (5, 7) else Except.error "")).all
      migEntryErrNonempty = false := by
  constructor
  · simp [migrateData]
  · decide

/-- Claim C4 (amended): `migrateData` produces exactly one entry per
requested table, in order; a table whose copy succeeds gets a success
entry with its row count, a table whose copy throws gets an error entry
whose message is exactly the caught message (non-empty whenever the
thrown message is non-empty), and a failure on one table never affects
the entries of the other tables. -/
theorem claim_C4_migrateData_report (tables : List String) (truncateTarget : Bool)
    (run : String → Except String (Nat × Nat)) :
    (migrateData tables truncateTarget run).length = tables.length ∧
    (∀ (pre : List String) (t : String) (post : List String),
      tables = pre ++ t :: post →
        migrateData tables truncateTarget run =
          migrateData pre truncateTarget run ++
          (match run t with
           | Except.ok (r, tm) => [MigEntry.success t r tm]
           | Except.error m => [MigEntry.failure t m]) ++
          migrateData post truncateTarget run) := by
  constructor
  · simp [migrateData]
  · intro pre t post heq
    subst heq
    simp only [migrateData, List.map_append, List.map_cons]
    cases hrt : run t with
    | ok v =>
      cases v with
      | mk r tm => simp
    | error m => simp

/-- Claim C4 (witness): the spec's own test case — migrate A then B
where B throws (with message "boom"): two entries, A success, B error
carrying the message. -/
theorem claim_C4_witness :
    (migrateData ["A", "B"] false
        (fun t => if t = "A" then Except.ok (3, 1) else Except.error "boom")).length = 2 ∧
    migrateData ["A", "B"] false
        (fun t => if t = "A" then Except.ok (3, 1) else Except.error "boom") =
      migrateData ["A"] false
          (fun t => if t = "A" then Except.ok (3, 1) else Except.error "boom") ++
        [MigEntry.failure "B" "boom"] ++
      migrateData [] false
          (fun t => if t = "A" then Except.ok (3, 1) else Except.error "boom") := by
  have h := claim_C4_migrateData_report ["A", "B"] false
    (fun t => if t = "A" then Except.ok (3, 1) else Except.error "boom")
  exact ⟨h.1, by
    have h2 := h.2 ["A"] "B" [] rfl
    simpa using h2⟩

/-! ## healthCheck (part_003 lines 524-579) -/

/-- The outcome of each native call `healthCheck` may perform, one
field per vendor branch.  `oracleBanner` is `result.rows[0]?.[0]` of
the `v$version` query (`none` models a missing row / value). -/
structure HealthDriver where
  oracleAcquireOk : Bool
  oracleExec : Except String (Option String)
  pgVersion : Except String String
  myVersion : Except String String
  sqliteVersion : Except String String
deriving Repr

/-- The slice of the health result the claims are about. -/
structure HealthResult where
  status : String
  version : String
deriving DecidableEq, Repr

/-- `DatabaseService.healthCheck`: the whole vendor switch sits inside
one try/catch whose catch returns a `status: 'unhealthy'` value.  The
oracle branch leases a pool connection with NO try/finally: when the
`v$version` execute throws, control jumps to the catch and
`oracleConn.close()` is never reached — the ledger records the leak. -/
def healthCheck (v : Vendor) (d : HealthDriver) : HealthResult × Ledger :=
  match v with
  | Vendor.oracle =>
    if d.oracleAcquireOk then
      match d.oracleExec with
      | Except.ok banner => (⟨"healthy", jsOrStr banner "unknown"⟩, ⟨1, 1⟩)
      | Except.error _ => (⟨"unhealthy", "error"⟩, ⟨1, 0⟩)
    else (⟨"unhealthy", "error"⟩, ⟨0, 0⟩)
  | Vendor.postgresql =>
    match d.pgVersion with
    | Except.ok ver => (⟨"healthy", ver⟩, ⟨0, 0⟩)
    | Except.error _ => (⟨"unhealthy", "error"⟩, ⟨0, 0⟩)
  | Vendor.mysql =>
    match d.myVersion with
    | Except.ok ver => (⟨"healthy", ver⟩, ⟨0, 0⟩)
    | Except.error _ => (⟨"unhealthy", "error"⟩, ⟨0, 0⟩)
  | Vendor.mariadb =>
    match d.myVersion with
    | Except.ok ver => (⟨"healthy", ver⟩, ⟨0, 0⟩)
    | Except.error _ => (⟨"unhealthy", "error"⟩, ⟨0, 0⟩)
  | Vendor.sqlserver => (⟨"healthy", "SQL Server"⟩, ⟨0, 0⟩)
  | Vendor.sqlite =>
    match d.sqliteVersion with
    | Except.ok ver => (⟨"healthy", "SQLite " ++ ver⟩, ⟨0, 0⟩)
    | Except.error _ => (⟨"unhealthy", "error"⟩, ⟨0, 0⟩)

/-- Do all the native calls the vendor's `healthCheck` branch performs
succeed?  The `sqlserver` branch performs none. -/
def healthNativeOk (v : Vendor) (d : HealthDriver) : Bool :=
  match v with
  | Vendor.oracle => d.oracleAcquireOk && d.oracleExec.toBool
  | Vendor.postgresql => d.pgVersion.toBool
  | Vendor.mysql => d.myVersion.toBool
  | Vendor.mariadb => d.myVersion.toBool
  | Vendor.sqlserver => true
  | Vendor.sqlite => d.sqliteVersion.toBool

/-- Claim C3: `healthCheck` is a total function of the driver outcomes
(it never propagates an error): when every native call of the vendor's
branch succeeds it returns status `healthy`, and when any of them fails
it returns status `unhealthy`. -/
theorem claim_C3_healthCheck_total (v : Vendor) (d : HealthDriver) :
    (healthCheck v d).1.status =
      (if healthNativeOk v d then "healthy" else "unhealthy") := by
  cases v with
  | oracle =>
    by_cases hacq : d.oracleAcquireOk
    · cases hex : d.oracleExec with
      | ok banner => simp [healthCheck, healthNativeOk, hacq, hex, Except.toBool, Except.isOk]
      | error e => simp [healthCheck, healthNativeOk, hacq, hex, Except.toBool, Except.isOk]
    · simp [healthCheck, healthNativeOk, hacq]
  | postgresql =>
    cases hex : d.pgVersion with
    | ok ver => simp [healthCheck, healthNativeOk, hex, Except.toBool, Except.isOk]
    | error e => simp [healthCheck, healthNativeOk, hex, Except.toBool, Except.isOk]
  | mysql =>
    cases hex : d.myVersion with
    | ok ver => simp [healthCheck, healthNativeOk, hex, Except.toBool, Except.isOk]
    | error e => simp [healthCheck, healthNativeOk, hex, Except.toBool, Except.isOk]
  | mariadb =>
    cases hex : d.myVersion with
    | ok ver => simp [healthCheck, healthNativeOk, hex, Except.toBool, Except.isOk]
    | error e => simp [healthCheck, healthNativeOk, hex, Except.toBool, Except.isOk]
  | sqlserver => simp [healthCheck, healthNativeOk]
  | sqlite =>
    cases hex : d.sqliteVersion with
    | ok ver => simp [healthCheck, healthNativeOk, hex, Except.toBool, Except.isOk]
    | error e => simp [healthCheck, healthNativeOk, hex, Except.toBool, Except.isOk]

/-- Claim C2 (code bug): when the oracle `v$version` execute throws
inside `healthCheck`, the operation returns its degraded result with
the leased connection acquired but never released — the scoped-release
guarantee is violated on this failure path. -/
theorem claim_C2_healthCheck_leak :
    healthCheck Vendor.oracle
        ⟨true, Except.error "ORA-00942", Except.ok "", Except.ok "", Except.ok ""⟩ =
      (⟨"unhealthy", "error"⟩, ⟨1, 0⟩) ∧
    (healthCheck Vendor.oracle
        ⟨true, Except.error "ORA-00942", Except.ok "", Except.ok "", Except.ok ""⟩).2.released <
      (healthCheck Vendor.oracle
        ⟨true, Except.error "ORA-00942", Except.ok "", Except.ok "", Except.ok ""⟩).2.acquired := by
  exact ⟨rfl, by decide⟩

/-! ## executeQuery row-cap policy (part_003 lines 6-108) -/

/-- What the vendor branch of `executeQuery` actually sends to the
native driver: plain SQL text (with any appended clause), SQL plus an
explicit `maxRows` execution option, or an event-stream request whose
SQL is passed through unmodified. -/
inductive SentQuery where
  | text (sql : String)
  | oracleOpts (sql : String) (maxRows : Nat)
  | ssStream (sql : String)
deriving DecidableEq, Repr

/-- Native driver/server state for one query: the full result set each
engine would produce for the underlying statement, plus the column
metadata each driver reports.  `ssRowEvents` is the sql-server event
stream: one `row` event per row, in order, before the terminal event. -/
structure QueryDriver where
  oracleMeta : List String
  oracleData : List Row
  pgFields : List String
  pgData : List Row
  myFields : List String
  myData : List Row
  ssCols : List String
  ssRowEvents : List Row
  sqliteData : List Row
deriving Repr

/-- Shape of the uniform query result (the fields the claims use). -/
structure QueryResult where
  columns : List String
  rows : List Row
deriving DecidableEq, Repr

/-- Models the external engine executing a statement with an appended
`LIMIT n` clause, or the oracle driver honouring the `maxRows`
execution option: the first `n` rows of the full result set. -/
def limitRows (data : List Row) (n : Nat) : List Row :=
  data.take n

/-- The `row` event handler of `executeSqlServerQuery` (repository
code): a row is buffered only while the buffer holds fewer than
`maxRows` rows; every event of the stream is still processed. -/
def ssBufferRows (maxRows : Nat) (events : List Row) : List Row :=
  events.foldl (fun acc r => if acc.length < maxRows then acc ++ [r] else acc) []

/-- `DatabaseService.executeQuery` dispatch on the success path: for
postgresql, mysql/mariadb and sqlite the statement is sent with
` LIMIT maxRows` textually appended; for oracle the unmodified
statement is sent with `maxRows` as an execution option; for sqlserver
the unmodified statement is streamed and rows are buffered client-side
by `ssBufferRows`.  (sqlite derives its column list from the first
returned row.) -/
def executeQuery (v : Vendor) (d : QueryDriver) (sql : String) (maxRows : Nat) :
    QueryResult × SentQuery :=
  match v with
  | Vendor.oracle =>
    (⟨d.oracleMeta, limitRows d.oracleData maxRows⟩, SentQuery.oracleOpts sql maxRows)
  | Vendor.postgresql =>
    (⟨d.pgFields, limitRows d.pgData maxRows⟩,
      SentQuery.text (sql ++ " LIMIT " ++ toString maxRows))
  | Vendor.mysql =>
    (⟨d.myFields, limitRows d.myData maxRows⟩,
      SentQuery.text (sql ++ " LIMIT " ++ toString maxRows))
  | Vendor.mariadb =>
    (⟨d.myFields, limitRows d.myData maxRows⟩,
      SentQuery.text (sql ++ " LIMIT " ++ toString maxRows))
  | Vendor.sqlserver =>
    (⟨d.ssCols, ssBufferRows maxRows d.ssRowEvents⟩, SentQuery.ssStream sql)
  | Vendor.sqlite =>
    let rws := limitRows d.sqliteData maxRows
    (⟨(rws.headD []).map Prod.fst, rws⟩,
      SentQuery.text (sql ++ " LIMIT " ++ toString maxRows))

theorem ssBufferRows_aux (maxRows : Nat) :
    ∀ (events : List Row) (acc : List Row),
      events.foldl (fun acc r => if acc.length < maxRows then acc ++ [r] else acc) acc =
        acc ++ events.take (maxRows - acc.length) := by
  intro events
  induction events with
  | nil => intro acc; simp
  | cons e rest ih =>
    intro acc
    by_cases h : acc.length < maxRows
    · rw [List.foldl_cons, if_pos h, ih]
      have h1 : maxRows - acc.length = (maxRows - (acc.length + 1)) + 1 := by omega
      simp only [List.length_append, List.length_cons, List.length_nil]
      rw [h1, List.take_succ_cons, List.append_assoc]
      simp
    · rw [List.foldl_cons, if_neg h, ih]
      have h1 : maxRows - acc.length = 0 := by omega
      rw [h1]
      simp

/-- The client-side buffering of the sqlserver event stream yields
exactly the first `maxRows` row events, while the fold still consumes
the entire stream. -/
theorem ssBufferRows_eq_take (maxRows : Nat) (events : List Row) :
    ssBufferRows maxRows events = events.take maxRows := by
  rw [ssBufferRows, ssBufferRows_aux]
  simp

/-- Claim C6: `executeQuery` enforces the row cap per vendor exactly as
claimed — a textually appended `LIMIT` clause for postgresql,
mysql/mariadb and sqlite; the `maxRows` execution option for oracle; a
client-side buffer filled only below the cap (while the whole stream is
drained) for sqlserver — and in every case the returned rows list has
length at most the requested cap. -/
theorem claim_C6_row_cap (d : QueryDriver) (sql : String) (maxRows : Nat) :
    (executeQuery Vendor.postgresql d sql maxRows).2 =
      SentQuery.text (sql ++ " LIMIT " ++ toString maxRows) ∧
    (executeQuery Vendor.mysql d sql maxRows).2 =
      SentQuery.text (sql ++ " LIMIT " ++ toString maxRows) ∧
    (executeQuery Vendor.mariadb d sql maxRows).2 =
      SentQuery.text (sql ++ " LIMIT " ++ toString maxRows) ∧
    (executeQuery Vendor.sqlite d sql maxRows).2 =
      SentQuery.text (sql ++ " LIMIT " ++ toString maxRows) ∧
    (executeQuery Vendor.oracle d sql maxRows).2 = SentQuery.oracleOpts sql maxRows ∧
    (executeQuery Vendor.sqlserver d sql maxRows).2 = SentQuery.ssStream sql ∧
    (executeQuery Vendor.sqlserver d sql maxRows).1.rows = d.ssRowEvents.take maxRows ∧
    ∀ v : Vendor, (executeQuery v d sql maxRows).1.rows.length ≤ maxRows := by
  refine ⟨rfl, rfl, rfl, rfl, rfl, rfl, ?_, ?_⟩
  · exact ssBufferRows_eq_take maxRows d.ssRowEvents
  · intro v
    cases v <;>
      simp [executeQuery, limitRows, ssBufferRows_eq_take, List.length_take]

/-! ## replicate_database handler (build/index.js lines 214-249) -/

/-- Kind of a catalog entry as produced by `listTables`. -/
inductive TKind where
  | table
  | view
deriving DecidableEq, Repr

/-- One `listTables` entry. -/
structure TableInfo where
  name : String
  kind : TKind
  schema : Option String := none
deriving DecidableEq, Repr

/-- One line pushed onto the replication report, with the data the
handler interpolates into it. -/
inductive RLine where
  | processing (table : String)
  | createdSchema
  | creationFailed (msg : String)
  | migrated (rows : Nat) (time : Nat)
  | tableError (table : String) (msg : String)
deriving DecidableEq, Repr

/-- The table name a report line mentions, if any. -/
def rlineTable : RLine → Option String
  | RLine.processing t => some t
  | RLine.tableError t _ => some t
  | _ => none

/-- Outcome of each call the handler makes while processing one table
(`describeTable`, `listPrimaryKeys`, executing the generated CREATE
TABLE against the target, `migrateTable`). -/
structure TableOutcome where
  describeE : Except String Unit
  pksE : Except String Unit
  ddlExecE : Except String Unit
  migrateE : Except String (Nat × Nat)

/-- Per-table body of the `replicate_database` loop: push the
processing line, then describe/PKs/DDL inside the outer try; only the
DDL execution has its own inner try whose failure becomes a note; the
migration result or the outer caught error ends the table's lines. -/
def processTable (name : String) (oc : TableOutcome) : List RLine :=
  match oc.describeE with
  | Except.error m => [RLine.processing name, RLine.tableError name m]
  | Except.ok _ =>
    match oc.pksE with
    | Except.error m => [RLine.processing name, RLine.tableError name m]
    | Except.ok _ =>
      let ddlLine := match oc.ddlExecE with
        | Except.ok _ => RLine.createdSchema
        | Except.error m => RLine.creationFailed m
      match oc.migrateE with
      | Except.ok (r, t) => [RLine.processing name, ddlLine, RLine.migrated r t]
      | Except.error m => [RLine.processing name, ddlLine, RLine.tableError name m]

/-- The `replicate_database` handler loop: list the source tables, skip
every entry of kind VIEW (`continue`), and process the rest in order,
each table's failure confined to its own lines. -/
def replicateDatabase (tables : List TableInfo) (env : String → TableOutcome) :
    List RLine :=
  (tables.filter (fun t => t.kind ≠ TKind.view)).flatMap
    (fun t => processTable t.name (env t.name))

/-- Claim C5: (1) every table name mentioned in the replication report
belongs to a listed non-VIEW entry; (2) a CREATE TABLE failure against
the target is recorded as a note and does not stop that table's data
migration; (3) the report of a concatenation of table lists is the
concatenation of the reports — a failure inside one table's processing
never affects the tables after it. -/
theorem claim_C5_replicate_isolation :
    (∀ (tables : List TableInfo) (env : String → TableOutcome) (l : RLine) (n : String),
      l ∈ replicateDatabase tables env → rlineTable l = some n →
        ∃ t ∈ tables, t.name = n ∧ t.kind ≠ TKind.view) ∧
    (∀ (name : String) (oc : TableOutcome) (m : String) (r tm : Nat),
      oc.describeE = Except.ok () → oc.pksE = Except.ok () →
      oc.ddlExecE = Except.error m → oc.migrateE = Except.ok (r, tm) →
        processTable name oc =
          [RLine.processing name, RLine.creationFailed m, RLine.migrated r tm]) ∧
    (∀ (xs ys : List TableInfo) (env : String → TableOutcome),
      replicateDatabase (xs ++ ys) env =
        replicateDatabase xs env ++ replicateDatabase ys env) := by
  refine ⟨?_, ?_, ?_⟩
  · intro tables env l n hl hn
    rw [replicateDatabase] at hl
    rcases List.mem_flatMap.mp hl with ⟨t, ht, hlt⟩
    rcases List.mem_filter.mp ht with ⟨htab, hkind⟩
    refine ⟨t, htab, ?_, by simpa using hkind⟩
    -- every line of `processTable t.name oc` mentions either no table
    -- or the name `t.name` itself
    have : ∀ oc : TableOutcome, ∀ l ∈ processTable t.name oc,
        rlineTable l = none ∨ rlineTable l = some t.name := by
      intro oc l hmem
      rw [processTable] at hmem
      rcases hd : oc.describeE with m | u
      · rw [hd] at hmem
        simp only [List.mem_cons, List.mem_singleton] at hmem
        rcases hmem with h | h | h
        · right; rw [h]; rfl
        · right; rw [h]; rfl
        · simp at h
      · rw [hd] at hmem
        rcases hp : oc.pksE with m | u2
        · rw [hp] at hmem
          simp only [List.mem_cons, List.mem_singleton] at hmem
          rcases hmem with h | h | h
          · right; rw [h]; rfl
          · right; rw [h]; rfl
          · simp at h
        · rw [hp] at hmem
          rcases hm : oc.migrateE with m | v
          · rw [hm] at hmem
            simp only [List.mem_cons, List.mem_singleton] at hmem
            rcases hmem with h | h | h | h
            · right; rw [h]; rfl
            · left; rw [h]; cases hdd : oc.ddlExecE <;> rfl
            · right; rw [h]; rfl
            · simp at h
          · rw [hm] at hmem
            rcases v with ⟨r, tm⟩
            simp only [List.mem_cons, List.mem_singleton] at hmem
            rcases hmem with h | h | h | h
            · right; rw [h]; rfl
            · left; rw [h]; cases hdd : oc.ddlExecE <;> rfl
            · left; rw [h]; rfl
            · simp at h
    rcases this (env t.name) l hlt with h | h
    · rw [h] at hn; exact absurd hn (by simp)
    · rw [h] at hn; exact (Option.some.injEq _ _ ▸ hn).symm ▸ rfl
  · intro name oc m r tm hd hp hdd hm
    rw [processTable, hd, hp, hdd, hm]
  · intro xs ys env
    rw [replicateDatabase, replicateDatabase, replicateDatabase,
      List.filter_append, List.flatMap_append]

/-- Claim C5 (witness): the spec's own test — source tables
`{T1: TABLE, V1: VIEW}`, all calls succeeding except T1's CREATE TABLE:
T1's lines still include the migration, and V1 is mentioned nowhere. -/
theorem claim_C5_witness :
    processTable "T1"
        ⟨Except.ok (), Except.ok (), Except.error "exists", Except.ok (4, 2)⟩ =
      [RLine.processing "T1", RLine.creationFailed "exists", RLine.migrated 4 2] ∧
    replicateDatabase
        ([⟨"T1", TKind.table, none⟩] ++ [⟨"V1", TKind.view, none⟩])
        (fun _ => ⟨Except.ok (), Except.ok (), Except.error "exists", Except.ok (4, 2)⟩) =
      replicateDatabase [⟨"T1", TKind.table, none⟩]
        (fun _ => ⟨Except.ok (), Except.ok (), Except.error "exists", Except.ok (4, 2)⟩) ++
      replicateDatabase [⟨"V1", TKind.view, none⟩]
        (fun _ => ⟨Except.ok (), Except.ok (), Except.error "exists", Except.ok (4, 2)⟩) :=
  ⟨claim_C5_replicate_isolation.2.1 "T1"
      ⟨Except.ok (), Except.ok (), Except.error "exists", Except.ok (4, 2)⟩
      "exists" 4 2 rfl rfl rfl rfl,
    claim_C5_replicate_isolation.2.2 [⟨"T1", TKind.table, none⟩] [⟨"V1", TKind.view, none⟩]
      (fun _ => ⟨Except.ok (), Except.ok (), Except.error "exists", Except.ok (4, 2)⟩)⟩

/-! ## listOracleTables three-tier fallback (part_003 lines 129-194) -/

/-- One row of the oracle `user_tables` / `all_tables` catalog views
(the two columns the code reads). -/
structure OraTableRow where
  tableName : String
  owner : String
deriving DecidableEq, Repr

/-- Snapshot of the oracle catalog visible to the session: the current
user's `user_tables` rows, the full `all_tables` content, the
accessible `all_users` names, and `SYS_CONTEXT('USERENV',
'CURRENT_SCHEMA')` (none models a missing row). -/
structure OracleCatalog where
  userTables : List OraTableRow
  allTables : List OraTableRow
  allUsers : List String
  currentSchema : Option String
deriving Repr

/-- The fixed list of built-in service accounts excluded by the
all-schemas fallback query. -/
def oracleSystemAccounts : List String :=
  ["SYS", "SYSTEM", "OUTLN", "DIP", "ORACLE_OCM", "DBSNMP", "APPQOSSYS", "WMSYS",
   "EXFSYS", "CTXSYS", "XDB", "ANONYMOUS", "ORDSYS", "ORDDATA", "MDSYS", "LBACSYS",
   "DVSYS", "DVF", "GSMADMIN_INTERNAL", "OJVMSYS", "OLAPSYS"]

/-- Tier 1: with a configured schema, `all_tables WHERE owner = :schema`
(bound upper-cased); without one, the session's `user_tables`. -/
def oracleTier1 (cat : OracleCatalog) (schema : Option String) : List OraTableRow :=
  match schema with
  | some s => cat.allTables.filter (fun r => r.owner = strUpper s)
  | none => cat.userTables

/-- Tier 3: `all_tables` restricted to owners that are accessible users
and not built-in service accounts (the `owner IN (SELECT username FROM
all_users WHERE username NOT IN (...))` subquery). -/
def oracleTier3 (cat : OracleCatalog) : List OraTableRow :=
  cat.allTables.filter
    (fun r => r.owner ∈ cat.allUsers ∧ r.owner ∉ oracleSystemAccounts)

/-- The guard of the all-schemas fallback:
`!schema || schema.toUpperCase() === currentSchema`. -/
def oracleFallbackCond (schema : Option String) (cat : OracleCatalog) : Bool :=
  match schema with
  | none => true
  | some s => cat.currentSchema = some (strUpper s)

/-- Row-to-entry mapping used by both return paths (`type` is always
`'TABLE'`, `schema` is the owning schema). -/
def oraRowToTable (r : OraTableRow) : TableInfo :=
  ⟨r.tableName, TKind.table, some r.owner⟩

/-- `DatabaseService.listOracleTables`: query tier 1; when it is empty,
resolve the current schema and — only when no schema was requested or
the requested schema (upper-cased) equals it — return the tier-3
all-schemas union; otherwise return the (empty) tier-1 mapping. -/
def listOracleTables (schema : Option String) (cat : OracleCatalog) : List TableInfo :=
  let result := oracleTier1 cat schema
  if result.isEmpty then
    if oracleFallbackCond schema cat then (oracleTier3 cat).map oraRowToTable
    else result.map oraRowToTable
  else result.map oraRowToTable

/-- Claim C7: the three-tier fallback of oracle table listing.  A
non-empty tier-1 query is returned as-is; an empty tier-1 result
triggers the all-schemas re-query exactly when the requested schema was
absent or equals (upper-cased) the resolved current schema, and the
owners in that returned union never include the built-in service
accounts; with a requested schema that differs from the current one the
result stays empty. -/
theorem claim_C7_listOracleTables_fallback (schema : Option String) (cat : OracleCatalog) :
    (oracleTier1 cat schema ≠ [] →
      listOracleTables schema cat = (oracleTier1 cat schema).map oraRowToTable) ∧
    (oracleTier1 cat schema = [] → oracleFallbackCond schema cat = true →
      listOracleTables schema cat = (oracleTier3 cat).map oraRowToTable ∧
      ∀ ti ∈ listOracleTables schema cat, ∀ o : String,
        ti.schema = some o → o ∉ oracleSystemAccounts) ∧
    (oracleTier1 cat schema = [] → oracleFallbackCond schema cat = false →
      listOracleTables schema cat = []) := by
  refine ⟨?_, ?_, ?_⟩
  · intro hne
    rw [listOracleTables]
    simp only [List.isEmpty_iff]
    rw [if_neg hne]
  · intro hemp hcond
    have hres : listOracleTables schema cat = (oracleTier3 cat).map oraRowToTable := by
      rw [listOracleTables]
      simp only [List.isEmpty_iff]
      rw [if_pos hemp, if_pos hcond]
    refine ⟨hres, ?_⟩
    intro ti hti o ho
    rw [hres] at hti
    rcases List.mem_map.mp hti with ⟨r, hr, hmap⟩
    rcases List.mem_filter.mp hr with ⟨_, hdec⟩
    have hprop : r.owner ∈ cat.allUsers ∧ r.owner ∉ oracleSystemAccounts :=
      of_decide_eq_true hdec
    have : o = r.owner := by
      rw [← hmap] at ho
      exact (Option.some.injEq _ _ ▸ ho.symm)
    rw [this]
    exact hprop.2
  · intro hemp hcond
    rw [listOracleTables]
    simp only [List.isEmpty_iff]
    rw [if_pos hemp, if_neg (by simp [hcond]), hemp]
    rfl

/-- Claim C7 (witness): tier 1 is empty for the current user, no schema
was requested, and the all-schemas union contains an `HR` table while
the catalog also holds `SYS` tables — the result lists the `HR` table
and its owner is not a service account. -/
theorem claim_C7_witness :
    listOracleTables none
        ⟨[], [⟨"DUAL", "SYS"⟩, ⟨"EMP", "HR"⟩], ["SYS", "HR"], some "APP"⟩ =
      [⟨"EMP", TKind.table, some "HR"⟩] ∧
    ∀ ti ∈ listOracleTables none
        ⟨[], [⟨"DUAL", "SYS"⟩, ⟨"EMP", "HR"⟩], ["SYS", "HR"], some "APP"⟩,
      ∀ o : String, ti.schema = some o → o ∉ oracleSystemAccounts := by
  have h := (claim_C7_listOracleTables_fallback none
    ⟨[], [⟨"DUAL", "SYS"⟩, ⟨"EMP", "HR"⟩], ["SYS", "HR"], some "APP"⟩).2.1
    (by decide) (by decide)
  refine ⟨?_, h.2⟩
  rw [h.1]
  decide

/-! ## analyzeProcedureTables (part_003 lines 770-796)

The patterns are of the shape `KEYWORD(\s+KEYWORD)*\s+([A-Z_][A-Z0-9_]*)`
with the `gi` flags: the scanner below matches them left to right,
case-insensitively, non-overlapping, resuming after each captured
identifier — the behaviour of repeated `pattern.exec` on a `g` regex. -/

/-- Case-insensitive character comparison (the `i` flag). -/
def eqCI (a b : Char) : Bool := a.toUpper = b.toUpper

/-- A `\s` character. -/
def isWsChar (c : Char) : Bool := c = ' ' || c = '\t' || c = '\n' || c = '\r'

/-- First character of `[A-Z_][A-Z0-9_]*` under the `i` flag. -/
def isIdentStart (c : Char) : Bool := c.isAlpha || c = '_'

/-- Continuation character of the identifier class. -/
def isIdentChar (c : Char) : Bool := c.isAlphanum || c = '_'

/-- Match a literal keyword case-insensitively at the head of the
input, returning the remainder. -/
def matchChars : List Char → List Char → Option (List Char)
  | [], cs => some cs
  | _ :: _, [] => none
  | k :: ks, c :: cs => if eqCI k c then matchChars ks cs else none

/-- Match `\s+` (greedy) at the head of the input. -/
def matchWs1 : List Char → Option (List Char)
  | [] => none
  | c :: cs => if isWsChar c then some (cs.dropWhile isWsChar) else none

/-- Match `K1\s+K2\s+...\s+` for the given keyword list. -/
def matchKeywords : List (List Char) → List Char → Option (List Char)
  | [], cs => some cs
  | w :: ws, cs =>
    match matchChars w cs with
    | none => none
    | some cs1 =>
      match matchWs1 cs1 with
      | none => none
      | some cs2 => matchKeywords ws cs2

/-- Capture `[A-Z_][A-Z0-9_]*` (greedy) at the head of the input. -/
def takeIdent : List Char → Option (String × List Char)
  | [] => none
  | c :: cs =>
    if isIdentStart c then
      some (String.mk (c :: cs.takeWhile isIdentChar), cs.dropWhile isIdentChar)
    else none

/-- Try the whole pattern at the current position. -/
def tryMatchAt (kws : List (List Char)) (cs : List Char) : Option (String × List Char) :=
  match matchKeywords kws cs with
  | none => none
  | some cs2 => takeIdent cs2

/-- Scan the text for all non-overlapping matches left to right.  The
fuel argument only bounds the recursion; every step consumes at least
one character, so `fuel = length` never runs out. -/
def scanFuel (kws : List (List Char)) : Nat → List Char → List String
  | 0, _ => []
  | _ + 1, [] => []
  | fuel + 1, c :: cs =>
    match tryMatchAt kws (c :: cs) with
    | some (t, rest) => t :: scanFuel kws fuel rest
    | none => scanFuel kws fuel cs

/-- All captured identifiers of one pattern over the source text. -/
def scanMatches (kws : List String) (src : String) : List String :=
  scanFuel (kws.map String.toList) src.toList.length src.toList

/-- `tableOps.get(t).add(op)` on the insertion-ordered map, modelled as
an association list: a new table is appended, a known table's operation
set is extended only when the operation is new. -/
def addOp (m : List (String × List String)) (t : String) (op : String) :
    List (String × List String) :=
  match m with
  | [] => [(t, [op])]
  | (t0, ops) :: rest =>
    if t0 = t then (t0, if op ∈ ops then ops else ops ++ [op]) :: rest
    else (t0, ops) :: addOp rest t op

/-- The `patterns` object of `analyzeProcedureTables`, in insertion
order: operation key and keyword sequence of its regex. -/
def procPatterns : List (String × List String) :=
  [("select", ["FROM"]),
   ("insert", ["INSERT", "INTO"]),
   ("update", ["UPDATE"]),
   ("delete", ["DELETE", "FROM"]),
   ("merge", ["MERGE", "INTO"])]

/-- `DatabaseService.analyzeProcedureTables`: run every pattern over
the whole source, upper-case each captured table name and the operation
key, and accumulate the table -> operation-set map. -/
def analyzeProcedureTables (sourceCode : String) : List (String × List String) :=
  procPatterns.foldl
    (fun m p =>
      (scanMatches p.2 sourceCode).foldl
        (fun m2 t => addOp m2 (strUpper t) (strUpper p.1)) m)
    []

/-- The five upper-cased operation kinds the analyzer can emit. -/
def opNames : List String := ["SELECT", "INSERT", "UPDATE", "DELETE", "MERGE"]

/-- Well-formedness of the analyzer's accumulated map: every entry has
an upper-cased table name and a non-empty set of known operation kinds. -/
def analyzeInv (m : List (String × List String)) : Prop :=
  ∀ p ∈ m, (∃ s, p.1 = strUpper s) ∧ p.2 ≠ [] ∧ ∀ op ∈ p.2, op ∈ opNames

theorem addOp_inv (t op : String) (hop : op ∈ opNames) (hs : ∃ s, t = strUpper s) :
    ∀ m, analyzeInv m → analyzeInv (addOp m t op) := by
  intro m
  induction m with
  | nil =>
    intro _ p hp
    simp only [addOp, List.mem_singleton] at hp
    subst hp
    exact ⟨hs, by simp, by intro o ho; simp only [List.mem_singleton] at ho; subst ho; exact hop⟩
  | cons hd rest ih =>
    rcases hd with ⟨t0, ops⟩
    intro hinv p hp
    rw [addOp] at hp
    by_cases ht : t0 = t
    · rw [if_pos ht] at hp
      rcases List.mem_cons.mp hp with h | h
      · subst h
        have h0 := hinv (t0, ops) (List.mem_cons_self _ _)
        refine ⟨h0.1, ?_, ?_⟩
        · by_cases hin : op ∈ ops
          · simpa [hin] using h0.2.1
          · simp [hin]
        · intro o ho
          by_cases hin : op ∈ ops
          · rw [if_pos hin] at ho
            exact h0.2.2 o ho
          · rw [if_neg hin] at ho
            rcases List.mem_append.mp ho with h1 | h1
            · exact h0.2.2 o h1
            · simp only [List.mem_singleton] at h1
              subst h1
              exact hop
      · exact hinv p (List.mem_cons_of_mem _ h)
    · rw [if_neg ht] at hp
      rcases List.mem_cons.mp hp with h | h
      · subst h
        exact hinv (t0, ops) (List.mem_cons_self _ _)
      · exact ih (fun q hq => hinv q (List.mem_cons_of_mem _ hq)) p h

theorem foldl_addOp_inv (op : String) (hop : op ∈ opNames) :
    ∀ (ts : List String) (m : List (String × List String)), analyzeInv m →
      analyzeInv (ts.foldl (fun m2 t => addOp m2 (strUpper t) op) m) := by
  intro ts
  induction ts with
  | nil => intro m h; simpa using h
  | cons t rest ih =>
    intro m h
    simp only [List.foldl_cons]
    exact ih _ (addOp_inv (strUpper t) op hop ⟨t, rfl⟩ m h)

/-- Claim C8: on the spec's example the analyzer maps `ORDERS` to
`{INSERT}` and `CUSTOMERS` to `{SELECT}`; and on every source text each
produced entry carries an upper-cased table name and a non-empty set of
the upper-cased operation kinds. -/
theorem claim_C8_analyzeProcedureTables :
    (analyzeProcedureTables "INSERT INTO ORDERS (...) SELECT * FROM CUSTOMERS").lookup
      "ORDERS" = some ["INSERT"] ∧
    (analyzeProcedureTables "INSERT INTO ORDERS (...) SELECT * FROM CUSTOMERS").lookup
      "CUSTOMERS" = some ["SELECT"] ∧
    ∀ src : String, analyzeInv (analyzeProcedureTables src) := by
  refine ⟨by decide, by decide, ?_⟩
  intro src
  rw [analyzeProcedureTables, procPatterns]
  simp only [List.foldl_cons, List.foldl_nil]
  apply foldl_addOp_inv _ (by decide)
  apply foldl_addOp_inv _ (by decide)
  apply foldl_addOp_inv _ (by decide)
  apply foldl_addOp_inv _ (by decide)
  apply foldl_addOp_inv _ (by decide)
  intro p hp
  simp at hp

/-- Claim C8 (witness): the invariant conjunct applied at the example
source: the `ORDERS` entry is upper-cased and carries only known
operation kinds. -/
theorem claim_C8_witness :
    ("ORDERS", ["INSERT"]) ∈
      analyzeProcedureTables "INSERT INTO ORDERS (...) SELECT * FROM CUSTOMERS" ∧
    ((∃ s, ("ORDERS" : String) = strUpper s) ∧ (["INSERT"] : List String) ≠ [] ∧
      ∀ op ∈ (["INSERT"] : List String), op ∈ opNames) :=
  ⟨by decide,
    claim_C8_analyzeProcedureTables.2.2 "INSERT INTO ORDERS (...) SELECT * FROM CUSTOMERS"
      ("ORDERS", ["INSERT"]) (by decide)⟩

end DbaMcp
